import Mathlib

/-!
Verification of the stevedore plugin-manager core.

Source files embedded here:
  * `src/stevedore/named.py`  — `NamedExtensionManager`
  * `src/stevedore/driver.py` — `DriverManager`

The base class `ExtensionManager` and the `Extension` record live in
`stevedore/extension.py`, which is not part of the provided sources; those
parts are modelled from the specification text (each such definition is
marked `Modelled from the spec:`).

Modelling conventions:
  * Python values are the inductive `PyVal`, with Python truthiness as
    `PyVal.truthy`.
  * The discovery collaborator hands back `Descriptor`s.  Resolution and
    invocation are opaque effectful steps in Python; here each descriptor
    carries the *outcome* of resolving it (`resolve`) and of calling the
    resolved plugin with the construction's fixed `invoke_args`/`invoke_kwds`
    (`invoke`), as an `Except` (a Python exception becomes `Except.error`).
  * The side effects of resolving / instantiating a plugin are recorded in an
    explicit `Effect` trace, so "rejected plugins are never resolved" is a
    statement about the trace.
  * A raised Python exception that escapes a constructor is `Except.error`
    carrying the formatted message of the corresponding `RuntimeError`
    (or `ValueError`/`IndexError`).
-/

/-- A Python runtime value, with just enough structure to decide truthiness. -/
inductive PyVal where
  | vnone : PyVal
  | vbool : Bool → PyVal
  | vint : Int → PyVal
  | vstr : String → PyVal
  | vobj : Nat → PyVal
deriving DecidableEq

/-- Python truthiness of a value (`bool(v)`). -/
def PyVal.truthy : PyVal → Bool
  | .vnone => false
  | .vbool b => b
  | .vint n => decide (n ≠ 0)
  | .vstr s => decide (s ≠ "")
  | .vobj _ => true

/-- Python truthiness of an optional value, where `none` is Python's `None`. -/
def pyTruthy : Option PyVal → Bool
  | none => false
  | some v => v.truthy

/-- Python `repr` of a string (single quotes, as produced by `%r`). -/
def pyRepr (s : String) : String :=
  String.singleton (Char.ofNat 39) ++ s ++ String.singleton (Char.ofNat 39)

/-- A load-time side effect: a descriptor's target was resolved (its module
imported and the class/callable looked up), or the resolved plugin was
invoked (instantiated).  Tagged with the descriptor's name. -/
inductive Effect where
  | resolved : String → Effect
  | invoked : String → Effect
deriving DecidableEq

/-- The descriptor name an effect is tagged with. -/
def Effect.epName : Effect → String
  | .resolved n => n
  | .invoked n => n

deriving instance DecidableEq for Except

/-- A plugin descriptor as yielded by the discovery collaborator: a `name`, a
human-readable `target` (the `entry_point_target` diagnostic string), and the
outcomes of resolving it and of invoking the resolved plugin with the fixed
construction arguments. -/
structure Descriptor where
  name : String
  target : String
  resolve : Except String PyVal
  invoke : Except String PyVal
deriving DecidableEq

/-- Modelled from the spec: the `Extension` record of `stevedore/extension.py`
(not in src/) — `name`, `entry_point_target`, the resolved `plugin`, and `obj`,
the instantiated object when invocation-on-load was requested and succeeded,
absent otherwise. -/
structure Extension where
  name : String
  entry_point_target : String
  plugin : PyVal
  obj : Option PyVal
deriving DecidableEq

/-- Modelled from the spec: `ExtensionManager._load_one_plugin` of
`stevedore/extension.py` (not in src/) — resolve the descriptor's target and,
if `invoke_on_load`, instantiate it with the fixed arguments, producing an
`Extension`; an error in either step propagates.  Returns the outcome paired
with the side effects that fired. -/
def ExtensionManager.load_one_plugin (ep : Descriptor) (invoke_on_load : Bool) :
    Except String (Option Extension) × List Effect :=
  match ep.resolve with
  | .error err => (.error err, [.resolved ep.name])
  | .ok plugin =>
    if invoke_on_load then
      match ep.invoke with
      | .error err => (.error err, [.resolved ep.name, .invoked ep.name])
      | .ok obj =>
          (.ok (some { name := ep.name, entry_point_target := ep.target,
                       plugin := plugin, obj := some obj }),
           [.resolved ep.name, .invoked ep.name])
    else
      (.ok (some { name := ep.name, entry_point_target := ep.target,
                   plugin := plugin, obj := none }),
       [.resolved ep.name])

/-- Modelled from the spec: `ExtensionManager._load_plugins` of
`stevedore/extension.py` (not in src/) — iterate the discovered descriptors,
apply the (virtually overridden) per-plugin load step; an error from one
descriptor is caught and that descriptor skipped when `catch_exception` is
true, and aborts the whole load (keeping the effects fired so far) when it is
false. -/
def ExtensionManager.load_plugins
    (load_one : Descriptor → Except String (Option Extension) × List Effect)
    (catch_exception : Bool) :
    List Descriptor → Except String (List Extension) × List Effect
  | [] => (.ok [], [])
  | ep :: rest =>
    match load_one ep,
        ExtensionManager.load_plugins load_one catch_exception rest with
    | (.error err, eff1), (r2, eff2) =>
        if catch_exception then (r2, eff1 ++ eff2) else (.error err, eff1)
    | (.ok none, eff1), (r2, eff2) => (r2, eff1 ++ eff2)
    | (.ok (some ext), eff1), (.ok exts, eff2) => (.ok (ext :: exts), eff1 ++ eff2)
    | (.ok (some _), eff1), (.error err, eff2) => (.error err, eff1 ++ eff2)

/-- `NamedExtensionManager._load_one_plugin` (src/stevedore/named.py): check
the name against the allow-list before going any further, so that nothing is
loaded for a name that will not be used; accepted descriptors fall through to
the base load step. -/
def NamedExtensionManager.load_one_plugin (names : List String) (ep : Descriptor)
    (invoke_on_load : Bool) : Except String (Option Extension) × List Effect :=
  if ep.name ∉ names then (.ok none, [])
  else ExtensionManager.load_one_plugin ep invoke_on_load

/-- Python's `list.index`: the index of the first occurrence, or a
`ValueError` when the element is absent. -/
def pyIndex (names : List String) (x : String) : Except String Nat :=
  match names with
  | [] => .error "ValueError: x is not in list"
  | n :: rest =>
    if n = x then .ok 0
    else
      match pyIndex rest x with
      | .ok i => .ok (i + 1)
      | .error err => .error err

/-- Whether `pyIndex names s` is defined (the name occurs in `names`). -/
def pyIndexOk (names : List String) (s : String) : Bool :=
  match pyIndex names s with
  | .ok _ => true
  | .error _ => false

/-- Whether `pyIndex names s` is defined and equals `i`. -/
def keyIs (names : List String) (s : String) (i : Nat) : Bool :=
  match pyIndex names s with
  | .ok j => decide (j = i)
  | .error _ => false

/-- The result of Python's stable `list.sort(key=lambda x: names.index(x.name))`
when every key is defined: a stable sort by a `Nat` key is the concatenation
of the key-buckets in key order, each bucket keeping the original order. -/
def NamedExtensionManager.stable_sorted (names : List String)
    (exts : List Extension) : List Extension :=
  (List.range names.length).flatMap
    (fun i => exts.filter (fun x => keyIs names x.name i))

/-- `self.extensions.sort(key=lambda x: names.index(x.name))`
(src/stevedore/named.py line 42): each extension's key is looked up with
Python `list.index`, which raises `ValueError` for a name missing from
`names`; otherwise the list is stably sorted by the key. -/
def NamedExtensionManager.sort_extensions (names : List String)
    (exts : List Extension) : Except String (List Extension) :=
  if exts.all (fun x => pyIndexOk names x.name) then
    .ok (NamedExtensionManager.stable_sorted names exts)
  else .error "ValueError: x is not in list"

/-- Manager state (spec §3): the namespace, the allow-list `_names`, the
loaded ordered `extensions`, and the use-time `propagate_map_exceptions`
policy flag. -/
structure NamedExtensionManager where
  namespace_ : String
  _names : List String
  extensions : List Extension
  propagate_map_exceptions : Bool
deriving DecidableEq

/-- `DriverManager` is a `NamedExtensionManager` with a one-element
allow-list (src/stevedore/driver.py). -/
abbrev DriverManager := NamedExtensionManager

/-- Modelled from the spec: `ExtensionManager.names()` of
`stevedore/extension.py` (not in src/) — the loaded extensions' names, in
load order. -/
def ExtensionManager.names (m : NamedExtensionManager) : List String :=
  m.extensions.map Extension.name

/-- `NamedExtensionManager.__init__` (src/stevedore/named.py) on top of the
spec-modelled base construction: load the discovered descriptors with the
allow-list load decision and per-plugin catching enabled, store the loaded
extensions, then — only if `name_order` — re-sort them to the allow-list
order (where the sort key may raise). -/
def NamedExtensionManager.construct (namespace_ : String)
    (discovered : List Descriptor) (names : List String)
    (invoke_on_load name_order : Bool) :
    Except String NamedExtensionManager × List Effect :=
  match ExtensionManager.load_plugins
      (fun ep => NamedExtensionManager.load_one_plugin names ep invoke_on_load)
      true discovered with
  | (.error err, eff) => (.error err, eff)
  | (.ok exts, eff) =>
    if name_order then
      match NamedExtensionManager.sort_extensions names exts with
      | .error err => (.error err, eff)
      | .ok sorted =>
          (.ok { namespace_ := namespace_, _names := names, extensions := sorted,
                 propagate_map_exceptions := false }, eff)
    else
      (.ok { namespace_ := namespace_, _names := names, extensions := exts,
             propagate_map_exceptions := false }, eff)

/-- `DriverManager._load_plugins` (src/stevedore/driver.py): delegate to the
inherited load with `catch_exception=False`, and wrap any escaping error as
`RuntimeError('Unable to load driver %s from %s: %s')`. -/
def DriverManager.load_plugins (namespace_ name : String)
    (discovered : List Descriptor) (invoke_on_load : Bool) :
    Except String (List Extension) × List Effect :=
  match ExtensionManager.load_plugins
      (fun ep => NamedExtensionManager.load_one_plugin [name] ep invoke_on_load)
      false discovered with
  | (.ok exts, eff) => (.ok exts, eff)
  | (.error err, eff) =>
      (.error ("Unable to load driver " ++ name ++ " from " ++ namespace_
               ++ ": " ++ err), eff)

/-- `DriverManager._init_plugins` (src/stevedore/driver.py): after the base
class stores the extensions, fail with `RuntimeError('No %r driver found,
looking for %r')` when none loaded and with `RuntimeError('Multiple %r
drivers found: %s')` (comma-joined `entry_point_target`s) when more than one
loaded. -/
def DriverManager.init_plugins (namespace_ name : String)
    (exts : List Extension) : Except String Unit :=
  if exts.isEmpty then
    .error ("No " ++ pyRepr namespace_ ++ " driver found, looking for "
            ++ pyRepr name)
  else if exts.length > 1 then
    .error ("Multiple " ++ pyRepr namespace_ ++ " drivers found: "
            ++ String.intercalate "," (exts.map Extension.entry_point_target))
  else .ok ()

/-- `DriverManager.__init__` (src/stevedore/driver.py): a
`NamedExtensionManager` construction with the one-element allow-list
`[name]`, except that the load step is `DriverManager._load_plugins`
(catching disabled, errors wrapped) and `DriverManager._init_plugins` then
enforces the cardinality-one invariant (no `name_order` is passed, so no
re-sort happens). -/
def DriverManager.construct (namespace_ name : String)
    (discovered : List Descriptor) (invoke_on_load : Bool) :
    Except String DriverManager × List Effect :=
  match DriverManager.load_plugins namespace_ name discovered invoke_on_load with
  | (.error err, eff) => (.error err, eff)
  | (.ok exts, eff) =>
    match DriverManager.init_plugins namespace_ name exts with
    | .error err => (.error err, eff)
    | .ok _ =>
        (.ok { namespace_ := namespace_, _names := [name], extensions := exts,
               propagate_map_exceptions := false }, eff)

/-- Modelled from the spec: `ExtensionManager.make_test_instance` of
`stevedore/extension.py` (not in src/) — produce a manager whose `extensions`
is exactly the supplied list, bypassing discovery and loading entirely
(`_names` is never populated on this path). -/
def ExtensionManager.make_test_instance (extensions : List Extension)
    (namespace_ : String) (propagate_map_exceptions : Bool) :
    NamedExtensionManager :=
  { namespace_ := namespace_, _names := [], extensions := extensions,
    propagate_map_exceptions := propagate_map_exceptions }

/-- `DriverManager.make_test_instance` (src/stevedore/driver.py): wrap the
single pre-configured extension in a one-element list and delegate to the
base factory. -/
def DriverManager.make_test_instance (extension : Extension)
    (namespace_ : String) (propagate_map_exceptions : Bool) : DriverManager :=
  ExtensionManager.make_test_instance [extension] namespace_
    propagate_map_exceptions

/-- Modelled from the spec: `ExtensionManager.map` of
`stevedore/extension.py` (not in src/) — invoke `func` once per loaded
extension in order, collecting results; a callback error is swallowed (that
extension contributes nothing) unless `propagate_map_exceptions` is true, in
which case the first error aborts the whole call. -/
def ExtensionManager.map (propagate_map_exceptions : Bool)
    (func : Extension → Except String PyVal) :
    List Extension → Except String (List PyVal)
  | [] => .ok []
  | e :: rest =>
    match func e with
    | .error err =>
        if propagate_map_exceptions then .error err
        else ExtensionManager.map propagate_map_exceptions func rest
    | .ok v =>
        match ExtensionManager.map propagate_map_exceptions func rest with
        | .error err => .error err
        | .ok vs => .ok (v :: vs)

/-- `DriverManager.__call__` (src/stevedore/driver.py): run the inherited
`map` and return the first result when the result list is non-empty
(`if results: return results[0]`), `None` otherwise. -/
def DriverManager.call (m : DriverManager)
    (func : Extension → Except String PyVal) : Except String (Option PyVal) :=
  match ExtensionManager.map m.propagate_map_exceptions func m.extensions with
  | .error err => .error err
  | .ok results =>
    match results with
    | [] => .ok none
    | v :: _ => .ok (some v)

/-- `DriverManager.driver` (src/stevedore/driver.py): read `extensions[0]`
(an `IndexError` when the list is empty) and return
`ext.obj if ext.obj else ext.plugin` — a Python *truthiness* test on `obj`. -/
def DriverManager.driver (m : DriverManager) : Except String PyVal :=
  match m.extensions with
  | [] => .error "IndexError: list index out of range"
  | ext :: _ =>
      .ok (match ext.obj with
           | some v => if v.truthy then v else ext.plugin
           | none => ext.plugin)

/-- Whether a descriptor's resolution (and, when requested, its invocation)
succeeds, i.e. whether the base load step would produce an extension for it. -/
def Descriptor.loads (ep : Descriptor) (invoke_on_load : Bool) : Bool :=
  match ep.resolve with
  | .error _ => false
  | .ok _ =>
    if invoke_on_load then
      match ep.invoke with
      | .ok _ => true
      | .error _ => false
    else true

/-- The list of extensions retained by a load pass over the descriptors with
the allow-list decision and per-plugin catching: failed and rejected
descriptors contribute nothing, accepted successful ones contribute their
extension, in discovery order. -/
def namedLoadList (names : List String) (invoke_on_load : Bool) :
    List Descriptor → List Extension
  | [] => []
  | ep :: rest =>
    match (NamedExtensionManager.load_one_plugin names ep invoke_on_load).1 with
    | .ok (some ext) => ext :: namedLoadList names invoke_on_load rest
    | _ => namedLoadList names invoke_on_load rest

lemma pyIndexOk_of_mem {names : List String} {s : String} (h : s ∈ names) :
    pyIndexOk names s = true := by
  induction names with
  | nil => cases h
  | cons n rest ih =>
    by_cases hn : n = s
    · simp [pyIndexOk, pyIndex, hn]
    · rcases List.mem_cons.mp h with h | h
      · exact absurd h.symm hn
      · have := ih h
        simp only [pyIndexOk, pyIndex, if_neg hn] at this ⊢
        rcases hix : pyIndex rest s with i | e <;> simp [hix] at this ⊢

lemma keyIs_cons_zero (n : String) (N : List String) (s : String) :
    keyIs (n :: N) s 0 = decide (s = n) := by
  by_cases hn : n = s
  · simp [keyIs, pyIndex, hn]
  · simp only [keyIs, pyIndex, if_neg hn]
    rcases hix : pyIndex N s with i | e
    · simp [Ne.symm hn]
    · simp [Ne.symm hn]

lemma keyIs_cons_succ (n : String) (N : List String) (s : String) (i : Nat) :
    keyIs (n :: N) s (i + 1) = (!decide (s = n) && keyIs N s i) := by
  by_cases hn : n = s
  · simp [keyIs, pyIndex, hn]
  · simp only [keyIs, pyIndex, if_neg hn]
    rcases hix : pyIndex N s with j | e
    · simp [Ne.symm hn]
    · simp [Ne.symm hn]

lemma stable_sorted_nil (exts : List Extension) :
    NamedExtensionManager.stable_sorted [] exts = [] := rfl

lemma stable_sorted_cons (n : String) (N : List String) (exts : List Extension) :
    NamedExtensionManager.stable_sorted (n :: N) exts
      = exts.filter (fun x => decide (x.name = n))
        ++ NamedExtensionManager.stable_sorted N
            (exts.filter (fun x => !decide (x.name = n))) := by
  unfold NamedExtensionManager.stable_sorted
  rw [List.length_cons, List.range_succ_eq_map, List.flatMap_cons, List.flatMap_map]
  congr 1
  · exact List.filter_congr (fun x _ => keyIs_cons_zero n N x.name)
  · refine congrArg (List.flatMap (List.range N.length)) (funext fun i => ?_)
    show exts.filter (fun x => keyIs (n :: N) x.name (i + 1)) = _
    rw [List.filter_filter]
    refine List.filter_congr (fun x _ => ?_)
    rw [keyIs_cons_succ]
    exact Bool.and_comm _ _

lemma filter_name_eq_nil_of_not_mem {exts : List Extension} {n : String}
    (h : n ∉ exts.map Extension.name) :
    exts.filter (fun x => decide (x.name = n)) = [] := by
  rw [List.filter_eq_nil_iff]
  intro x hx
  simp only [decide_eq_true_eq]
  intro hxn
  exact h (hxn ▸ List.mem_map_of_mem Extension.name hx)

lemma map_name_filter_eq {exts : List Extension} {n : String}
    (h : (exts.map Extension.name).Nodup) :
    (exts.filter (fun x => decide (x.name = n))).map Extension.name
      = if n ∈ exts.map Extension.name then [n] else [] := by
  induction exts with
  | nil => simp
  | cons x rest ih =>
    simp only [List.map_cons, List.nodup_cons] at h
    by_cases hx : x.name = n
    · rw [List.filter_cons_of_pos (by simp [hx]),
        filter_name_eq_nil_of_not_mem (hx ▸ h.1)]
      simp [hx]
    · rw [List.filter_cons_of_neg (by simp [hx]), ih h.2]
      simp [List.mem_cons, Ne.symm hx]

lemma mem_stable_sorted {N : List String} {exts : List Extension} {x : Extension}
    (h : x ∈ NamedExtensionManager.stable_sorted N exts) : x ∈ exts := by
  unfold NamedExtensionManager.stable_sorted at h
  rcases List.mem_flatMap.mp h with ⟨i, _, hx⟩
  exact (List.mem_filter.mp hx).1

lemma stable_sorted_map_name :
    ∀ (N : List String) (exts : List Extension), N.Nodup →
      (exts.map Extension.name).Nodup →
      (NamedExtensionManager.stable_sorted N exts).map Extension.name
        = N.filter (fun s => decide (s ∈ exts.map Extension.name))
  | [], exts, _, _ => by simp [stable_sorted_nil]
  | n :: N, exts, hN, hx => by
    rw [stable_sorted_cons, List.map_append, map_name_filter_eq hx]
    rw [List.nodup_cons] at hN
    have hx2 : ((exts.filter (fun x => !decide (x.name = n))).map
        Extension.name).Nodup :=
      ((List.filter_sublist exts).map Extension.name).nodup hx
    rw [stable_sorted_map_name N _ hN.2 hx2]
    have hsame : N.filter
          (fun s => decide (s ∈ (exts.filter
            (fun x => !decide (x.name = n))).map Extension.name))
        = N.filter (fun s => decide (s ∈ exts.map Extension.name)) := by
      refine List.filter_congr (fun s hs => ?_)
      have hsn : s ≠ n := fun h => hN.1 (h ▸ hs)
      simp only [decide_eq_decide, List.mem_map, List.mem_filter,
        Bool.not_eq_eq_eq_not, Bool.not_true, decide_eq_false_iff_not]
      constructor
      · rintro ⟨x, ⟨hxe, _⟩, hxn⟩
        exact ⟨x, hxe, hxn⟩
      · rintro ⟨x, hxe, hxn⟩
        exact ⟨x, ⟨hxe, fun hh => hsn (hxn.symm.trans hh)⟩, hxn⟩
    rw [hsame, List.filter_cons]
    by_cases hmem : n ∈ exts.map Extension.name <;> simp [hmem]

lemma load_one_fst_of_loads {names : List String} {ep : Descriptor}
    {invoke_on_load : Bool} (hmem : ep.name ∈ names)
    (hl : ep.loads invoke_on_load = true) :
    ∃ ext, (NamedExtensionManager.load_one_plugin names ep invoke_on_load).1
        = .ok (some ext) ∧ ext.name = ep.name := by
  unfold NamedExtensionManager.load_one_plugin ExtensionManager.load_one_plugin
  unfold Descriptor.loads at hl
  rw [if_neg (by simpa using hmem)]
  rcases hres : ep.resolve with e | v
  · simp [hres] at hl
  · rcases hinv : ep.invoke with e2 | w
    · cases invoke_on_load <;> simp [hres, hinv] at hl ⊢
    · cases invoke_on_load <;> simp [hres, hinv]

lemma load_one_fst_of_not_loads {names : List String} {ep : Descriptor}
    {invoke_on_load : Bool} (hl : ep.loads invoke_on_load = false) :
    (∃ err, (NamedExtensionManager.load_one_plugin names ep invoke_on_load).1
        = .error err)
    ∨ (NamedExtensionManager.load_one_plugin names ep invoke_on_load).1
        = .ok none := by
  unfold NamedExtensionManager.load_one_plugin ExtensionManager.load_one_plugin
  unfold Descriptor.loads at hl
  by_cases hmem : ep.name ∈ names
  · rw [if_neg (by simpa using hmem)]
    rcases hres : ep.resolve with e | v
    · exact Or.inl ⟨e, by simp [hres]⟩
    · rcases hinv : ep.invoke with e2 | w
      · cases invoke_on_load <;> simp [hres, hinv] at hl ⊢
      · cases invoke_on_load <;> simp [hres, hinv] at hl ⊢
  · exact Or.inr (by simp [if_pos hmem])

lemma load_plugins_true_fst (names : List String) (invoke_on_load : Bool) :
    ∀ eps : List Descriptor,
      (ExtensionManager.load_plugins
          (fun ep => NamedExtensionManager.load_one_plugin names ep
            invoke_on_load) true eps).1
        = .ok (namedLoadList names invoke_on_load eps)
  | [] => rfl
  | ep :: rest => by
    have ih := load_plugins_true_fst names invoke_on_load rest
    rcases h1 : NamedExtensionManager.load_one_plugin names ep invoke_on_load
      with ⟨r1, e1⟩
    rcases h2 : ExtensionManager.load_plugins
        (fun ep => NamedExtensionManager.load_one_plugin names ep
          invoke_on_load) true rest with ⟨r2, e2⟩
    rw [h2] at ih
    simp only at ih
    subst ih
    rcases r1 with err | ext
    · simp [ExtensionManager.load_plugins, h1, h2, namedLoadList]
    · rcases ext with _ | ext <;>
        simp [ExtensionManager.load_plugins, h1, h2, namedLoadList]

lemma namedLoadList_map_name (names : List String) (invoke_on_load : Bool) :
    ∀ eps : List Descriptor,
      (namedLoadList names invoke_on_load eps).map Extension.name
        = (eps.filter (fun ep => decide (ep.name ∈ names)
            && ep.loads invoke_on_load)).map Descriptor.name
  | [] => rfl
  | ep :: rest => by
    have ih := namedLoadList_map_name names invoke_on_load rest
    by_cases hmem : ep.name ∈ names
    · by_cases hl : ep.loads invoke_on_load
      · rcases load_one_fst_of_loads hmem hl with ⟨ext, hfst, hname⟩
        rw [List.filter_cons_of_pos (by simp [hmem, hl])]
        simp only [namedLoadList, hfst, List.map_cons, hname, ih]
      · rw [List.filter_cons_of_neg (by simp [hmem, hl])]
        rcases @load_one_fst_of_not_loads names ep invoke_on_load
            (Bool.eq_false_iff.mpr hl) with ⟨err, herr⟩ | hnone
        · simp only [namedLoadList, herr, ih]
        · simp only [namedLoadList, hnone, ih]
    · rw [List.filter_cons_of_neg (by simp [hmem])]
      have hnone : (NamedExtensionManager.load_one_plugin names ep
          invoke_on_load).1 = .ok none := by
        simp [NamedExtensionManager.load_one_plugin, hmem]
      simp only [namedLoadList, hnone, ih]

lemma namedLoadList_name_mem {names : List String} {invoke_on_load : Bool}
    {eps : List Descriptor} {x : Extension}
    (hx : x ∈ namedLoadList names invoke_on_load eps) : x.name ∈ names := by
  have hmm : x.name ∈ (namedLoadList names invoke_on_load eps).map Extension.name :=
    List.mem_map_of_mem Extension.name hx
  rw [namedLoadList_map_name] at hmm
  rcases List.mem_map.mp hmm with ⟨ep, hep, hname⟩
  have hf := (List.mem_filter.mp hep).2
  rw [Bool.and_eq_true] at hf
  exact hname ▸ of_decide_eq_true hf.1

lemma namedLoadList_name_mem_discovered {names : List String}
    {invoke_on_load : Bool} {eps : List Descriptor} {x : Extension}
    (hx : x ∈ namedLoadList names invoke_on_load eps) :
    x.name ∈ eps.map Descriptor.name := by
  have hmm : x.name ∈ (namedLoadList names invoke_on_load eps).map Extension.name :=
    List.mem_map_of_mem Extension.name hx
  rw [namedLoadList_map_name] at hmm
  rcases List.mem_map.mp hmm with ⟨ep, hep, hname⟩
  exact hname ▸ List.mem_map_of_mem Descriptor.name (List.mem_filter.mp hep).1

lemma load_one_effects_name {names : List String} {ep : Descriptor}
    {invoke_on_load : Bool} :
    ∀ ef ∈ (NamedExtensionManager.load_one_plugin names ep invoke_on_load).2,
      ef.epName ∈ names := by
  intro ef hef
  unfold NamedExtensionManager.load_one_plugin
    ExtensionManager.load_one_plugin at hef
  by_cases hmem : ep.name ∈ names
  · rw [if_neg (by simpa using hmem)] at hef
    rcases hres : ep.resolve with e | v <;> rw [hres] at hef
    · simp at hef
      simp [hef, Effect.epName, hmem]
    · rcases hinv : ep.invoke with e2 | w <;>
        cases invoke_on_load <;> simp [hinv] at hef <;>
        first
          | (rcases hef with hef | hef <;> simp [hef, Effect.epName, hmem])
          | simp [hef, Effect.epName, hmem]
  · rw [if_pos hmem] at hef
    simp at hef

lemma load_plugins_effects_name (names : List String) (invoke_on_load : Bool)
    (catch_exception : Bool) :
    ∀ eps : List Descriptor,
      ∀ ef ∈ (ExtensionManager.load_plugins
          (fun ep => NamedExtensionManager.load_one_plugin names ep
            invoke_on_load) catch_exception eps).2,
        ef.epName ∈ names
  | [] => by intro ef hef; simp [ExtensionManager.load_plugins] at hef
  | ep :: rest => by
    intro ef hef
    have ih := load_plugins_effects_name names invoke_on_load catch_exception rest
    have h1 := @load_one_effects_name names ep invoke_on_load
    rcases he1 : NamedExtensionManager.load_one_plugin names ep invoke_on_load
      with ⟨r1, e1⟩
    rcases he2 : ExtensionManager.load_plugins
        (fun ep => NamedExtensionManager.load_one_plugin names ep
          invoke_on_load) catch_exception rest with ⟨r2, e2⟩
    rw [he1] at h1
    rw [he2] at ih
    simp only at h1 ih
    rcases r1 with err | ext
    · rcases catch_exception with _ | _
      · simp only [ExtensionManager.load_plugins, he1, he2,
          Bool.false_eq_true, if_false] at hef
        exact h1 ef hef
      · simp only [ExtensionManager.load_plugins, he1, he2, if_true] at hef
        rcases List.mem_append.mp hef with h | h
        · exact h1 ef h
        · exact ih ef h
    · rcases ext with _ | ext
      · simp only [ExtensionManager.load_plugins, he1, he2] at hef
        rcases List.mem_append.mp hef with h | h
        · exact h1 ef h
        · exact ih ef h
      · rcases r2 with err2 | exts
        · simp only [ExtensionManager.load_plugins, he1, he2] at hef
          rcases List.mem_append.mp hef with h | h
          · exact h1 ef h
          · exact ih ef h
        · simp only [ExtensionManager.load_plugins, he1, he2] at hef
          rcases List.mem_append.mp hef with h | h
          · exact h1 ef h
          · exact ih ef h

lemma load_plugins_true_of_false_ok
    (load_one : Descriptor → Except String (Option Extension) × List Effect) :
    ∀ (eps : List Descriptor) (exts : List Extension) (eff : List Effect),
      ExtensionManager.load_plugins load_one false eps = (.ok exts, eff) →
      ExtensionManager.load_plugins load_one true eps = (.ok exts, eff)
  | [] => by intro exts eff h; exact h
  | ep :: rest => by
    intro exts eff h
    have ih := load_plugins_true_of_false_ok load_one rest
    rcases he1 : load_one ep with ⟨r1, e1⟩
    rcases he2 : ExtensionManager.load_plugins load_one false rest with ⟨r2, e2⟩
    rcases r1 with err | ext
    · simp only [ExtensionManager.load_plugins, he1, he2,
        Bool.false_eq_true, if_false] at h
      exact absurd (congrArg Prod.fst h) (by simp)
    · rcases ext with _ | ext
      · simp only [ExtensionManager.load_plugins, he1, he2] at h
        have h2 : ExtensionManager.load_plugins load_one false rest
            = (.ok exts, e2) := by
          rw [he2, Prod.mk.injEq]
          rw [Prod.mk.injEq] at h
          exact ⟨h.1, rfl⟩
        have h3 := ih exts e2 h2
        simp only [ExtensionManager.load_plugins, he1, h3]
        rw [Prod.mk.injEq] at h ⊢
        exact ⟨rfl, h.2⟩
      · rcases r2 with err2 | exts2
        · simp only [ExtensionManager.load_plugins, he1, he2] at h
          exact absurd (congrArg Prod.fst h) (by simp)
        · simp only [ExtensionManager.load_plugins, he1, he2] at h
          have h3 := ih exts2 e2 he2
          simp only [ExtensionManager.load_plugins, he1, h3]
          rw [Prod.mk.injEq] at h ⊢
          exact ⟨h.1, h.2⟩

lemma named_construct_no_order (namespace_ : String) (eps : List Descriptor)
    (names : List String) (invoke_on_load : Bool) :
    NamedExtensionManager.construct namespace_ eps names invoke_on_load false
      = (.ok { namespace_ := namespace_, _names := names,
               extensions := namedLoadList names invoke_on_load eps,
               propagate_map_exceptions := false },
         (ExtensionManager.load_plugins
            (fun ep => NamedExtensionManager.load_one_plugin names ep
              invoke_on_load) true eps).2) := by
  have hfst := load_plugins_true_fst names invoke_on_load eps
  rcases he : ExtensionManager.load_plugins
      (fun ep => NamedExtensionManager.load_one_plugin names ep invoke_on_load)
      true eps with ⟨r, eff⟩
  rw [he] at hfst
  simp only at hfst
  subst hfst
  simp [NamedExtensionManager.construct, he]

lemma named_construct_order (namespace_ : String) (eps : List Descriptor)
    (names : List String) (invoke_on_load : Bool) :
    NamedExtensionManager.construct namespace_ eps names invoke_on_load true
      = (.ok { namespace_ := namespace_, _names := names,
               extensions := NamedExtensionManager.stable_sorted names
                 (namedLoadList names invoke_on_load eps),
               propagate_map_exceptions := false },
         (ExtensionManager.load_plugins
            (fun ep => NamedExtensionManager.load_one_plugin names ep
              invoke_on_load) true eps).2) := by
  have hfst := load_plugins_true_fst names invoke_on_load eps
  rcases he : ExtensionManager.load_plugins
      (fun ep => NamedExtensionManager.load_one_plugin names ep invoke_on_load)
      true eps with ⟨r, eff⟩
  rw [he] at hfst
  simp only at hfst
  subst hfst
  have hguard : (namedLoadList names invoke_on_load eps).all
      (fun x => pyIndexOk names x.name) = true := by
    rw [List.all_eq_true]
    intro x hx
    exact pyIndexOk_of_mem (namedLoadList_name_mem hx)
  simp [NamedExtensionManager.construct, he,
    NamedExtensionManager.sort_extensions, hguard]

lemma init_plugins_ok_iff (namespace_ name : String) (exts : List Extension) :
    DriverManager.init_plugins namespace_ name exts = .ok () ↔
      exts.length = 1 := by
  unfold DriverManager.init_plugins
  rcases exts with _ | ⟨e, rest⟩
  · simp
  · rcases rest with _ | ⟨e2, rest2⟩
    · simp
    · simp

/-- C1: the spec (and its design notes) require `driver` to return the
extension's instantiated `obj` whenever invocation-on-load produced one,
whatever value it is; the source's truthiness test `ext.obj if ext.obj else
ext.plugin` instead returns the unresolved `plugin` when the instantiated
object is falsy (here: the invocation produced the integer `0`, yet `driver`
yields the plugin class).  This evaluates the embedded code at that failing
input. -/
theorem driver_falsy_obj_returns_plugin :
    DriverManager.driver (DriverManager.make_test_instance
        { name := "d", entry_point_target := "t",
          plugin := PyVal.vobj 1, obj := some (PyVal.vint 0) } "TESTING" false)
      = .ok (PyVal.vobj 1) ∧ (PyVal.vobj 1 : PyVal) ≠ PyVal.vint 0 :=
  ⟨rfl, by decide⟩

/-- C2: when DriverManager construction completes loading with zero loaded
extensions, construction fails with the "driver not found" error reporting
the namespace and the requested name, and no manager is returned. -/
theorem driverManager_zero_matches_not_found (namespace_ name : String)
    (eps : List Descriptor) (invoke_on_load : Bool) (eff : List Effect)
    (h : DriverManager.load_plugins namespace_ name eps invoke_on_load
        = (.ok [], eff)) :
    (DriverManager.construct namespace_ name eps invoke_on_load).1
        = .error ("No " ++ pyRepr namespace_ ++ " driver found, looking for "
            ++ pyRepr name)
      ∧ ∀ (m : DriverManager) (eff2 : List Effect),
          DriverManager.construct namespace_ name eps invoke_on_load
            ≠ (.ok m, eff2) := by
  have h1 : (DriverManager.construct namespace_ name eps invoke_on_load).1
      = .error ("No " ++ pyRepr namespace_ ++ " driver found, looking for "
          ++ pyRepr name) := by
    simp [DriverManager.construct, h, DriverManager.init_plugins]
  refine ⟨h1, fun m eff2 hcontra => ?_⟩
  rw [hcontra] at h1
  exact Except.noConfusion h1

theorem driverManager_zero_matches_not_found_witness :
    (DriverManager.construct "X" "d" [] false).1
        = .error ("No " ++ pyRepr "X" ++ " driver found, looking for "
            ++ pyRepr "d")
      ∧ ∀ (m : DriverManager) (eff2 : List Effect),
          DriverManager.construct "X" "d" [] false ≠ (.ok m, eff2) :=
  driverManager_zero_matches_not_found "X" "d" [] false [] rfl

/-- C3: when DriverManager construction completes loading with more than one
loaded extension, construction fails with the "ambiguous driver" error
reporting the namespace and the comma-joined `entry_point_target` of every
loaded match, without deduplication. -/
theorem driverManager_multiple_matches_ambiguous (namespace_ name : String)
    (eps : List Descriptor) (invoke_on_load : Bool) (exts : List Extension)
    (eff : List Effect)
    (h : DriverManager.load_plugins namespace_ name eps invoke_on_load
        = (.ok exts, eff))
    (hlen : 1 < exts.length) :
    (DriverManager.construct namespace_ name eps invoke_on_load).1
      = .error ("Multiple " ++ pyRepr namespace_ ++ " drivers found: "
          ++ String.intercalate ","
              (exts.map Extension.entry_point_target)) := by
  have hne : exts.isEmpty = false := by
    rcases exts with _ | ⟨e, rest⟩
    · simp at hlen
    · simp
  simp [DriverManager.construct, h, DriverManager.init_plugins, hne, hlen]

theorem driverManager_multiple_matches_ambiguous_witness :
    (DriverManager.construct "X" "d"
        [{ name := "d", target := "m:A", resolve := .ok (.vobj 4),
           invoke := .ok (.vobj 14) },
         { name := "d", target := "m:A", resolve := .ok (.vobj 5),
           invoke := .ok (.vobj 15) }] false).1
      = .error ("Multiple " ++ pyRepr "X" ++ " drivers found: "
          ++ String.intercalate ","
              ([{ name := "d", entry_point_target := "m:A",
                  plugin := PyVal.vobj 4, obj := none },
                { name := "d", entry_point_target := "m:A",
                  plugin := PyVal.vobj 5,
                  obj := none }].map Extension.entry_point_target)) :=
  driverManager_multiple_matches_ambiguous "X" "d" _ false _ _ rfl (by decide)

/-- C6: during DriverManager construction per-plugin catching is disabled —
the load runs with `catch_exception = false` — and any error raised while
resolving or instantiating the candidate descriptor surfaces as the single
wrapped "Unable to load driver" error naming the requested name, the
namespace and the underlying cause. -/
theorem driverManager_load_error_wrapped (namespace_ name : String)
    (eps : List Descriptor) (invoke_on_load : Bool) (err : String)
    (eff : List Effect)
    (h : ExtensionManager.load_plugins
        (fun ep => NamedExtensionManager.load_one_plugin [name] ep
          invoke_on_load) false eps = (.error err, eff)) :
    (DriverManager.construct namespace_ name eps invoke_on_load).1
      = .error ("Unable to load driver " ++ name ++ " from " ++ namespace_
          ++ ": " ++ err) := by
  simp [DriverManager.construct, DriverManager.load_plugins, h]

theorem driverManager_load_error_wrapped_witness :
    (DriverManager.construct "X" "d"
        [{ name := "d", target := "m:D", resolve := .error "boom",
           invoke := .ok .vnone }] false).1
      = .error ("Unable to load driver " ++ "d" ++ " from " ++ "X"
          ++ ": " ++ "boom") :=
  driverManager_load_error_wrapped "X" "d" _ false "boom" _ rfl

/-- C7: `DriverManager.__call__` invokes `func` through the inherited `map`
(so the use-time failure-isolation policy is inherited) and returns the first
element of the result sequence, or nothing when `map` produced no results; in
particular, on a manager holding one extension it yields `func`'s value, and
nothing when `func` failed and was isolated. -/
theorem driverManager_call_first_result (m : DriverManager)
    (func : Extension → Except String PyVal) :
    (DriverManager.call m func
        = match ExtensionManager.map m.propagate_map_exceptions func
            m.extensions with
          | .error err => .error err
          | .ok results => .ok results.head?) ∧
    ∀ ext : Extension, m.extensions = [ext] →
      DriverManager.call m func
        = match func ext with
          | .ok v => .ok (some v)
          | .error err =>
              if m.propagate_map_exceptions then .error err else .ok none := by
  constructor
  · unfold DriverManager.call
    rcases hmap : ExtensionManager.map m.propagate_map_exceptions func
        m.extensions with err | results
    · rfl
    · rcases results with _ | ⟨v, rest⟩ <;> rfl
  · intro ext hext
    unfold DriverManager.call
    rw [hext]
    rcases hf : func ext with err | v
    · rcases hp : m.propagate_map_exceptions with _ | _ <;>
        simp [ExtensionManager.map, hf, hp]
    · simp [ExtensionManager.map, hf]

theorem driverManager_call_first_result_witness :
    DriverManager.call (DriverManager.make_test_instance
        { name := "d", entry_point_target := "t",
          plugin := PyVal.vobj 1, obj := none } "TESTING" false)
        (fun e => .ok e.plugin)
      = .ok (some (PyVal.vobj 1)) := by
  have h := (driverManager_call_first_result
      (DriverManager.make_test_instance
        { name := "d", entry_point_target := "t",
          plugin := PyVal.vobj 1, obj := none } "TESTING" false)
      (fun e => .ok e.plugin)).2
      { name := "d", entry_point_target := "t",
        plugin := PyVal.vobj 1, obj := none } rfl
  exact h.trans rfl

/-- C10: the `driver` property reads `extensions[0]` with no emptiness guard;
after every successful DriverManager construction — discovery-based (where
post-load validation enforces cardinality one) or `make_test_instance` (which
wraps the single extension in a one-element list) — the loaded sequence has
exactly one element, so the access never fails. -/
theorem driver_access_safe :
    (∀ (namespace_ name : String) (eps : List Descriptor)
        (invoke_on_load : Bool) (m : DriverManager) (eff : List Effect),
        DriverManager.construct namespace_ name eps invoke_on_load
            = (.ok m, eff) →
          m.extensions.length = 1 ∧ ∃ v, DriverManager.driver m = .ok v) ∧
    ∀ (extension : Extension) (namespace_ : String) (p : Bool),
        (DriverManager.make_test_instance extension
            namespace_ p).extensions.length = 1 ∧
        ∃ v, DriverManager.driver
            (DriverManager.make_test_instance extension namespace_ p)
          = .ok v := by
  constructor
  · intro namespace_ name eps invoke_on_load m eff h
    rcases he : DriverManager.load_plugins namespace_ name eps invoke_on_load
      with ⟨r, eff1⟩
    rcases r with err | exts
    · rw [DriverManager.construct, he] at h
      exact absurd (congrArg Prod.fst h) (by simp)
    · have hcon : DriverManager.construct namespace_ name eps invoke_on_load
          = (match DriverManager.init_plugins namespace_ name exts with
             | .error err => ((.error err : Except String DriverManager), eff1)
             | .ok _ =>
               (.ok { namespace_ := namespace_,
                      _names := [name],
                      extensions := exts,
                      propagate_map_exceptions := false }, eff1)) := by
        rw [DriverManager.construct, he]
      rw [hcon] at h
      rcases hi : DriverManager.init_plugins namespace_ name exts with err2 | u
      · rw [hi] at h
        simp at h
      · cases u
        rw [hi] at h
        simp only [Prod.mk.injEq, Except.ok.injEq] at h
        have hlen : exts.length = 1 :=
          (init_plugins_ok_iff namespace_ name exts).mp (by rw [hi])
        obtain ⟨hm, -⟩ := h
        subst hm
        refine ⟨hlen, ?_⟩
        rcases List.length_eq_one.mp hlen with ⟨a, ha⟩
        simp [DriverManager.driver, ha]
  · intro extension namespace_ p
    exact ⟨rfl, ⟨_, rfl⟩⟩

theorem driver_access_safe_witness :
    (({ namespace_ := "X", _names := ["d"],
        extensions := [{ name := "d", entry_point_target := "m:A",
                         plugin := PyVal.vobj 4, obj := none }],
        propagate_map_exceptions := false } :
          DriverManager).extensions.length = 1
      ∧ ∃ v, DriverManager.driver
          { namespace_ := "X", _names := ["d"],
            extensions := [{ name := "d", entry_point_target := "m:A",
                             plugin := PyVal.vobj 4, obj := none }],
            propagate_map_exceptions := false } = .ok v) :=
  driver_access_safe.1 "X" "d"
    [{ name := "d", target := "m:A", resolve := .ok (.vobj 4),
       invoke := .ok (.vobj 14) }] false _ _ rfl

lemma bool_eq_of_iff {a b : Bool} (h : a = true ↔ b = true) : a = b := by
  cases a <;> cases b <;> simp_all

/-- C4: a NamedExtensionManager accepts a descriptor only if its name is in
the allow-list, and the check precedes any resolution/instantiation: an
excluded descriptor's load step returns nothing with no side effects, every
fired load effect is for an allow-listed name, and `names()` is a subset of
the allow-list intersected with the discovered names. -/
theorem namedExtensionManager_allowlist_filtering (N : List String)
    (invoke_on_load : Bool) :
    (∀ ep : Descriptor, ep.name ∉ N →
        NamedExtensionManager.load_one_plugin N ep invoke_on_load
          = (.ok none, [])) ∧
    ∀ (namespace_ : String) (eps : List Descriptor) (name_order : Bool)
      (m : NamedExtensionManager) (eff : List Effect),
      NamedExtensionManager.construct namespace_ eps N invoke_on_load
          name_order = (.ok m, eff) →
        (∀ ef ∈ eff, ef.epName ∈ N) ∧
        ∀ nm ∈ ExtensionManager.names m,
          nm ∈ N ∧ nm ∈ eps.map Descriptor.name := by
  constructor
  · intro ep h
    simp [NamedExtensionManager.load_one_plugin, h]
  · intro namespace_ eps name_order m eff hcon
    have heffs := load_plugins_effects_name N invoke_on_load true eps
    rcases name_order with _ | _
    · rw [named_construct_no_order] at hcon
      simp only [Prod.mk.injEq, Except.ok.injEq] at hcon
      obtain ⟨hm, heff⟩ := hcon
      subst hm
      subst heff
      refine ⟨fun ef hef => heffs ef hef, fun nm hnm => ?_⟩
      rcases List.mem_map.mp hnm with ⟨x, hx, rfl⟩
      exact ⟨namedLoadList_name_mem hx, namedLoadList_name_mem_discovered hx⟩
    · rw [named_construct_order] at hcon
      simp only [Prod.mk.injEq, Except.ok.injEq] at hcon
      obtain ⟨hm, heff⟩ := hcon
      subst hm
      subst heff
      refine ⟨fun ef hef => heffs ef hef, fun nm hnm => ?_⟩
      rcases List.mem_map.mp hnm with ⟨x, hx, rfl⟩
      have hx2 := mem_stable_sorted hx
      exact ⟨namedLoadList_name_mem hx2, namedLoadList_name_mem_discovered hx2⟩

theorem namedExtensionManager_allowlist_filtering_witness :
    (NamedExtensionManager.load_one_plugin ["a"]
        { name := "b", target := "m:B", resolve := .error "PROBE",
          invoke := .error "PROBE" } true = (.ok none, [])) ∧
    ((∀ ef ∈ ([.resolved "a", .invoked "a"] : List Effect),
        ef.epName ∈ ["a"]) ∧
      ∀ nm ∈ ExtensionManager.names
          { namespace_ := "X", _names := ["a"],
            extensions := [{ name := "a", entry_point_target := "m:A",
                             plugin := PyVal.vobj 1,
                             obj := some (PyVal.vobj 11) }],
            propagate_map_exceptions := false },
        nm ∈ ["a"] ∧ nm ∈ ([{ name := "a", target := "m:A",
                              resolve := .ok (.vobj 1),
                              invoke := .ok (.vobj 11) },
                            { name := "b", target := "m:B",
                              resolve := .error "PROBE",
                              invoke := .error "PROBE" }] :
                              List Descriptor).map Descriptor.name) :=
  ⟨(namedExtensionManager_allowlist_filtering ["a"] true).1
      { name := "b", target := "m:B", resolve := .error "PROBE",
        invoke := .error "PROBE" } (by decide),
    (namedExtensionManager_allowlist_filtering ["a"] true).2 "X"
      [{ name := "a", target := "m:A", resolve := .ok (.vobj 1),
         invoke := .ok (.vobj 11) },
       { name := "b", target := "m:B", resolve := .error "PROBE",
         invoke := .error "PROBE" }] false _ _ rfl⟩

/-- C9: every extension loaded by a NamedExtensionManager has a name in the
allow-list `_names`, so the `name_order` sort key `names.index(x.name)` is
defined for every loaded extension and construction never fails with the
sort's ValueError — it always returns a manager. -/
theorem namedExtensionManager_loaded_names_in_allowlist
    (namespace_ : String) (eps : List Descriptor) (N : List String)
    (invoke_on_load name_order : Bool) :
    ∃ (m : NamedExtensionManager) (eff : List Effect),
      NamedExtensionManager.construct namespace_ eps N invoke_on_load
          name_order = (.ok m, eff)
        ∧ m._names = N ∧ ∀ x ∈ m.extensions, x.name ∈ N := by
  rcases name_order with _ | _
  · exact ⟨_, _, named_construct_no_order namespace_ eps N invoke_on_load,
      rfl, fun x hx => namedLoadList_name_mem hx⟩
  · exact ⟨_, _, named_construct_order namespace_ eps N invoke_on_load,
      rfl, fun x hx => namedLoadList_name_mem (mem_stable_sorted hx)⟩

/-- C5: with `name_order` true, the extension sequence is ordered exactly as
the matching names appear in the allow-list, independently of the order in
which discovery yielded the descriptors (the membership condition on the
right quantifies over the descriptor list only as a set); allow-list names
with no loaded match are absent. -/
theorem namedExtensionManager_name_order (namespace_ : String)
    (eps : List Descriptor) (N : List String) (invoke_on_load : Bool)
    (hN : N.Nodup) (hD : (eps.map Descriptor.name).Nodup) :
    ∃ (m : NamedExtensionManager) (eff : List Effect),
      NamedExtensionManager.construct namespace_ eps N invoke_on_load true
          = (.ok m, eff) ∧
      ExtensionManager.names m
        = N.filter (fun s => eps.any
            (fun ep => decide (ep.name = s) && ep.loads invoke_on_load)) := by
  refine ⟨_, _, named_construct_order namespace_ eps N invoke_on_load, ?_⟩
  have hLn : ((namedLoadList N invoke_on_load eps).map Extension.name).Nodup := by
    rw [namedLoadList_map_name]
    exact ((List.filter_sublist eps).map Descriptor.name).nodup hD
  show (NamedExtensionManager.stable_sorted N
      (namedLoadList N invoke_on_load eps)).map Extension.name = _
  rw [stable_sorted_map_name N _ hN hLn]
  refine List.filter_congr (fun s hs => ?_)
  refine bool_eq_of_iff ?_
  rw [namedLoadList_map_name]
  simp only [decide_eq_true_eq, List.any_eq_true, List.mem_map,
    List.mem_filter, Bool.and_eq_true]
  constructor
  · rintro ⟨ep, ⟨hin, _, hl⟩, hname⟩
    exact ⟨ep, hin, hname, hl⟩
  · rintro ⟨ep, hin, hname, hl⟩
    exact ⟨ep, ⟨hin, hname.symm ▸ hs, hl⟩, hname⟩

theorem namedExtensionManager_name_order_witness :
    ∃ (m : NamedExtensionManager) (eff : List Effect),
      NamedExtensionManager.construct "X"
          [{ name := "a", target := "m:A", resolve := .ok (.vobj 1),
             invoke := .ok (.vobj 11) },
           { name := "b", target := "m:B", resolve := .ok (.vobj 2),
             invoke := .ok (.vobj 12) },
           { name := "c", target := "m:C", resolve := .ok (.vobj 3),
             invoke := .ok (.vobj 13) }] ["c", "a"] false true
          = (.ok m, eff) ∧
      ExtensionManager.names m = ["c", "a"] := by
  obtain ⟨m, eff, h1, h2⟩ := namedExtensionManager_name_order "X"
    [{ name := "a", target := "m:A", resolve := .ok (.vobj 1),
       invoke := .ok (.vobj 11) },
     { name := "b", target := "m:B", resolve := .ok (.vobj 2),
       invoke := .ok (.vobj 12) },
     { name := "c", target := "m:C", resolve := .ok (.vobj 3),
       invoke := .ok (.vobj 13) }] ["c", "a"] false (by decide) (by decide)
  exact ⟨m, eff, h1, h2.trans (by decide)⟩

/-- Named from the claim's words for comparison (refinement candidate): a
NamedExtensionManager construction with the one-element allow-list `[name]`
and otherwise identical options, followed by DriverManager's post-load
cardinality validation, with nothing else changed. -/
def DriverManager.spec_named_then_validate (namespace_ name : String)
    (discovered : List Descriptor) (invoke_on_load : Bool) :
    Except String DriverManager × List Effect :=
  match NamedExtensionManager.construct namespace_ discovered [name]
      invoke_on_load false with
  | (.error err, eff) => (.error err, eff)
  | (.ok m, eff) =>
    match DriverManager.init_plugins namespace_ name m.extensions with
    | .error err => (.error err, eff)
    | .ok _ => (.ok m, eff)

/-- C8 counterexample: on a descriptor whose resolution fails, DriverManager
construction aborts with the wrapped "Unable to load driver" error (catching
disabled), while NamedExtensionManager-then-validation catches the error,
loads nothing, and fails with "No driver found" — so DriverManager
construction is not NamedExtensionManager construction with the same options
plus cardinality validation. -/
theorem driverManager_not_named_plus_validation :
    (DriverManager.construct "X" "d"
        [{ name := "d", target := "m:D", resolve := .error "boom",
           invoke := .ok .vnone }] false).1
        = .error ("Unable to load driver " ++ "d" ++ " from " ++ "X"
            ++ ": " ++ "boom")
      ∧ (DriverManager.spec_named_then_validate "X" "d"
          [{ name := "d", target := "m:D", resolve := .error "boom",
             invoke := .ok .vnone }] false).1
        = .error ("No " ++ pyRepr "X" ++ " driver found, looking for "
            ++ pyRepr "d")
      ∧ DriverManager.construct "X" "d"
          [{ name := "d", target := "m:D", resolve := .error "boom",
             invoke := .ok .vnone }] false
        ≠ DriverManager.spec_named_then_validate "X" "d"
          [{ name := "d", target := "m:D", resolve := .error "boom",
             invoke := .ok .vnone }] false :=
  ⟨rfl, rfl, by decide⟩

/-- C8 amended: whenever loading raises no error, DriverManager construction
coincides exactly with NamedExtensionManager construction on the one-element
allow-list `[name]` followed by the post-load cardinality validation; when a
load error occurs the two differ, because DriverManager additionally forces
per-plugin catching off and wraps the error (see the counterexample). -/
theorem driverManager_refines_named_when_load_ok (namespace_ name : String)
    (eps : List Descriptor) (invoke_on_load : Bool) (exts : List Extension)
    (eff : List Effect)
    (h : ExtensionManager.load_plugins
        (fun ep => NamedExtensionManager.load_one_plugin [name] ep
          invoke_on_load) false eps = (.ok exts, eff)) :
    DriverManager.construct namespace_ name eps invoke_on_load
      = DriverManager.spec_named_then_validate namespace_ name eps
          invoke_on_load := by
  have htrue := load_plugins_true_of_false_ok _ eps exts eff h
  have hdl : DriverManager.load_plugins namespace_ name eps invoke_on_load
      = (.ok exts, eff) := by
    rw [DriverManager.load_plugins, h]
  have hnc : NamedExtensionManager.construct namespace_ eps [name]
        invoke_on_load false
      = (.ok { namespace_ := namespace_,
               _names := [name],
               extensions := exts,
               propagate_map_exceptions := false }, eff) := by
    rw [NamedExtensionManager.construct, htrue]
    rfl
  rw [DriverManager.construct, hdl,
    DriverManager.spec_named_then_validate, hnc]

theorem driverManager_refines_named_when_load_ok_witness :
    DriverManager.construct "X" "d"
        [{ name := "d", target := "m:A", resolve := .ok (.vobj 4),
           invoke := .ok (.vobj 14) }] false
      = DriverManager.spec_named_then_validate "X" "d"
        [{ name := "d", target := "m:A", resolve := .ok (.vobj 4),
           invoke := .ok (.vobj 14) }] false :=
  driverManager_refines_named_when_load_ok "X" "d"
    [{ name := "d", target := "m:A", resolve := .ok (.vobj 4),
       invoke := .ok (.vobj 14) }] false
    [{ name := "d", entry_point_target := "m:A", plugin := .vobj 4,
       obj := none }] [.resolved "d"] rfl
